import Mathlib

/-!
Verification development for the echo-markets frontend Bitcoin core
(src/lib/bitcoin.ts, src/lib/utils.ts UtxoService, and the WalletService
variant). The TypeScript core is shallowly embedded: pure computations are
translated into executable Lean definitions; calls into external collaborators
(the mempool indexer, the @scure HD-derivation and parsing libraries, the
Schnorr signer) are modelled as explicit function parameters or as the parsed
data they return. Machine numbers are Nat/Int; the half-vbyte fee arithmetic
is carried out exactly over Nat with a Rat bridge lemma relating it to the
ceiling formula of the source.
-/

namespace EchoMarkets

/-! ## UTXO selection (src/lib/bitcoin.ts selectUTXOs, lines 415-452, and
src/lib/utils.ts UtxoService.selectUtxos, lines 1637-1677) -/

/-- A UTXO as consumed by the selection code: txid, vout, value in satoshis,
and the confirmation flag from the indexer status object. -/
structure UTXOx where
  txid : String
  vout : Nat
  value : Nat
  confirmed : Bool
deriving DecidableEq, Repr

/-- Sort preference of both selection variants: confirmed before unconfirmed,
then value descending. The result `utxoBefore a b = true` means `a` may stay
before `b`; ties keep input order, matching the stable JS sort. -/
def utxoBefore (a b : UTXOx) : Bool :=
  if a.confirmed = b.confirmed then b.value ≤ a.value else a.confirmed

def insertUtxo (a : UTXOx) : List UTXOx → List UTXOx
  | [] => [a]
  | b :: l => if utxoBefore a b then a :: b :: l else b :: insertUtxo a l

/-- Stable insertion sort by `utxoBefore`, modelling the
`[...utxos].sort(comparator)` call of the source (JS `Array.prototype.sort`
is stable, and `utxoBefore` is a total preorder, so the stable-sorted result
is unique). -/
def sortUtxos : List UTXOx → List UTXOx
  | [] => []
  | a :: l => insertUtxo a (sortUtxos l)

/-- Fee computed inside both selection loops:
`Math.ceil((10.5 + inputs*57.5 + outputs*43) * feeRate)`. Carried out exactly
over Nat by counting half-vbytes: the raw vsize is
`(21 + 115*inputs + 86*outputs) / 2` vbytes, and for a natural number `a`,
`ceil(a/2) = (a+1)/2` in Nat division. `selectFee_eq_ceil` below proves this
equals the ceiling expression of the source. The fee rate is a natural
number of sat/vbyte, as delivered by the mempool.space recommended-fees
endpoint. -/
def selectFee (inputs outputs feeRate : Nat) : Nat :=
  ((21 + 115 * inputs + 86 * outputs) * feeRate + 1) / 2

/-- Sum of the values of a list of UTXOs (the running `total` of the loops). -/
def sumValues (l : List UTXOx) : Nat := (l.map (fun u => u.value)).sum

/-- Result record of `selectUTXOs` in src/lib/bitcoin.ts: selected inputs,
fee, and change. Change is an integer because the source computes
`total - targetAmount - fee` with JS number arithmetic, which can in
principle go negative. -/
structure Selection where
  selected : List UTXOx
  fee : Nat
  change : Int
deriving DecidableEq, Repr

/-- The greedy accumulation loop of `selectUTXOs`: push the next sorted UTXO,
recompute the fee for the current input count with 2 outputs, and stop as
soon as `total >= targetAmount + fee`. -/
def selLoop (target feeRate : Nat) :
    List UTXOx → List UTXOx → Nat → Option Selection
  | [], _, _ => none
  | u :: rest, selected, total =>
    let selected2 := selected ++ [u]
    let total2 := total + u.value
    let fee := selectFee selected2.length 2 feeRate
    if target + fee ≤ total2 then
      some ⟨selected2, fee, (total2 : Int) - target - fee⟩
    else
      selLoop target feeRate rest selected2 total2

/-- Model of `selectUTXOs(utxos, targetAmount, feeRate)` from
src/lib/bitcoin.ts lines 415-452. Returns `none` for the JS `null`
(insufficient funds). No protected-value filtering happens here; the source
function iterates over every sorted input UTXO. -/
def selectUTXOs (utxos : List UTXOx) (targetAmount feeRate : Nat) :
    Option Selection :=
  selLoop targetAmount feeRate (sortUtxos utxos) [] 0

/-- Result record of `UtxoService.selectUtxos` in src/lib/utils.ts, which
additionally reports the running total. -/
structure UTXOSelection where
  selected : List UTXOx
  total : Nat
  fee : Nat
  change : Int
deriving DecidableEq, Repr

/-- The greedy loop of `UtxoService.selectUtxos`, identical to `selLoop`
except that the result reports the accumulated total. -/
def svcSelLoop (target feeRate : Nat) :
    List UTXOx → List UTXOx → Nat → Option UTXOSelection
  | [], _, _ => none
  | u :: rest, selected, total =>
    let selected2 := selected ++ [u]
    let total2 := total + u.value
    let fee := selectFee selected2.length 2 feeRate
    if target + fee ≤ total2 then
      some ⟨selected2, total2, fee, (total2 : Int) - target - fee⟩
    else
      svcSelLoop target feeRate rest selected2 total2

/-- Model of `UtxoService.selectUtxos(utxos, targetAmount, feeRate)` from
src/lib/utils.ts lines 1637-1677. The method reads no state of the service
object: in particular it does not consult `includeProtected` and performs no
protected-value filtering. -/
def serviceSelectUtxos (utxos : List UTXOx) (targetAmount feeRate : Nat) :
    Option UTXOSelection :=
  svcSelLoop targetAmount feeRate (sortUtxos utxos) [] 0

/-! ## Protected values and scan-time filtering (src/lib/utils.ts) -/

/-- Membership in PROTECTED_VALUES_SET = the values of PROTECTED_VALUES:
330 (Taproot dust), 333 (mining output), 546 (ordinals dust), 777 (lucky
sats), 1000 (BRC-20 small), 10000 (large inscriptions). -/
def isProtectedValue (value : Nat) : Bool :=
  value == 330 || value == 333 || value == 546 || value == 777 ||
  value == 1000 || value == 10000

/-- Model of `filterProtectedUtxos`: drop every UTXO whose value is
protected. -/
def filterProtectedUtxos (utxos : List UTXOx) : List UTXOx :=
  utxos.filter (fun u => !(isProtectedValue u.value))

/-- Configuration state of the `UtxoService` class: the constructor options
`includeProtected` (default false) and `minValue` (default 1000 sats). -/
structure UtxoService where
  includeProtected : Bool
  minValue : Nat
deriving DecidableEq, Repr

/-- The `UtxoService` built from empty constructor options. -/
def defaultUtxoService : UtxoService := ⟨false, 1000⟩

/-- The pure filtering core of `UtxoService.scanAddress` (and of
`scanAddressWithKeys`), applied to the raw UTXO list fetched from the
indexer: first drop values below `minValue`, then drop protected values
unless `includeProtected` was set. -/
def scanAddressFilter (svc : UtxoService) (raw : List UTXOx) : List UTXOx :=
  let byMin := raw.filter (fun u => svc.minValue ≤ u.value)
  if svc.includeProtected then byMin else filterProtectedUtxos byMin

/-! ## Fee estimator (src/lib/bitcoin.ts lines 1110-1135) -/

/-- Model of `estimateTaprootTxSize(numInputs, numOutputs)` =
`Math.ceil(10.5 + numInputs*57.5 + numOutputs*43)`; note that here, unlike in
`selectFee`, the vsize itself is rounded up before any rate is applied. -/
def estimateTaprootTxSize (numInputs numOutputs : Nat) : Nat :=
  (21 + 115 * numInputs + 86 * numOutputs + 1) / 2

/-- Model of `calculateTaprootFee(numInputs, numOutputs, feeRate)` with an
explicitly supplied natural fee rate: `Math.ceil(size * feeRate)`, a no-op
ceiling since both factors are integers. -/
def calculateTaprootFee (numInputs numOutputs feeRate : Nat) : Nat :=
  estimateTaprootTxSize numInputs numOutputs * feeRate

/-! ## Commit/spell classification and broadcast
(src/lib/bitcoin.ts txInfo lines 670-711, classifyProverTxs lines 722-804,
broadcastTxPackage lines 836-945).

The function `txInfo` parses a raw transaction hex with the external
btc-signer library and returns the transaction id together with its inputs
as "txid:vout" strings. We model its output as `TxData` and pass the parse
itself as a function parameter `txI : String → TxData`, so the
classification logic is stated for every possible parser behaviour. -/

/-- Parsed transaction information as produced by `txInfo`: the display
txid and the list of inputs formatted as "txid:vout". -/
structure TxData where
  id : String
  inputs : List String
deriving DecidableEq, Repr

def charsStartWith : List Char → List Char → Bool
  | _, [] => true
  | [], _ :: _ => false
  | c :: cs, d :: ds => c == d && charsStartWith cs ds

/-- JS `String.prototype.startsWith`, computed on character lists. -/
def strStartsWith (s p : String) : Bool := charsStartWith s.toList p.toList

/-- The check `inputs.some((input) => input.startsWith(txid + ":"))` used by
`classifyProverTxs` to decide whether a transaction spends some output of
the transaction with the given id. -/
def spendsOutputOf (inputs : List String) (txid : String) : Bool :=
  inputs.any (fun inp => strStartsWith inp (txid ++ ":"))

/-- Classification result: commit and spell hexes with their parsed data. -/
structure ClassifiedPair where
  commitTxHex : String
  commitTxInfo : TxData
  spellTxHex : String
  spellTxInfo : TxData
deriving DecidableEq, Repr

/-- Model of `classifyProverTxs([tx0Hex, tx1Hex], fundingUtxoId)`.
Decision tree of the source: exactly one transaction spending the funding
UTXO is the commit; when both spend it, the dependency decides; when
neither spends it, or no dependency exists, or finally the identified spell
does not spend the commit id, the source throws, modelled as `.error`. -/
def classifyProverTxs (txI : String → TxData) (tx0Hex tx1Hex : String)
    (fundingUtxoId : String) : Except String ClassifiedPair :=
  let tx0Info := txI tx0Hex
  let tx1Info := txI tx1Hex
  let tx0SpendsFunding := fundingUtxoId ∈ tx0Info.inputs
  let tx1SpendsFunding := fundingUtxoId ∈ tx1Info.inputs
  let assigned : Except String (String × TxData × String × TxData) :=
    if tx0SpendsFunding ∧ ¬tx1SpendsFunding then
      .ok (tx0Hex, tx0Info, tx1Hex, tx1Info)
    else if tx1SpendsFunding ∧ ¬tx0SpendsFunding then
      .ok (tx1Hex, tx1Info, tx0Hex, tx0Info)
    else if tx0SpendsFunding ∧ tx1SpendsFunding then
      if spendsOutputOf tx1Info.inputs tx0Info.id then
        .ok (tx0Hex, tx0Info, tx1Hex, tx1Info)
      else if spendsOutputOf tx0Info.inputs tx1Info.id then
        .ok (tx1Hex, tx1Info, tx0Hex, tx0Info)
      else
        .error "Both spend funding, but neither spends the other"
    else
      .error "Cannot determine commit tx: neither transaction spends funding UTXO"
  match assigned with
  | .error e => .error e
  | .ok (commitTxHex, commitTxInfo, spellTxHex, spellTxInfo) =>
    if spendsOutputOf spellTxInfo.inputs commitTxInfo.id then
      .ok ⟨commitTxHex, commitTxInfo, spellTxHex, spellTxInfo⟩
    else
      .error "No spell tx found: neither tx spends commit output"

/-- One network submission performed by `broadcastTxPackage`: either a
single-transaction POST to the mempool API or an atomic submitpackage call
carrying the topologically sorted pair. -/
inductive BroadcastCall where
  | single (txHex : String)
  | package (txs : List String)
deriving DecidableEq, Repr

/-- The funding UTXO identifier string built by `broadcastTxPackage` from
its funding UTXO argument: txid, colon, vout. -/
def fundingUtxoIdOf (txid : String) (vout : Nat) : String :=
  txid ++ ":" ++ toString vout

/-- Model of `broadcastTxPackage(tx1Hex, tx2Hex, fundingUtxo)`. The value
`.ok calls` records, in order, the broadcast submissions the function hands
to the network collaborator (whose responses are external); `.error`
models a throw before any submission. Classification runs first; only on
success does the function choose between the atomic package path (spell
also spends funding) and the sequential path (commit first, then spell). -/
def broadcastTxPackage (txI : String → TxData) (tx1Hex tx2Hex : String)
    (fundingTxid : String) (fundingVout : Nat) :
    Except String (List BroadcastCall) :=
  let fundingUtxoId := fundingUtxoIdOf fundingTxid fundingVout
  match classifyProverTxs txI tx1Hex tx2Hex fundingUtxoId with
  | .error e => .error e
  | .ok c =>
    if fundingUtxoId ∈ c.spellTxInfo.inputs then
      .ok [.package [c.commitTxHex, c.spellTxHex]]
    else
      .ok [.single c.commitTxHex, .single c.spellTxHex]

/-! ## Spell-transaction signing (src/lib/bitcoin.ts signSpellTx lines
540-619 and signProverTransactions lines 624-660).

Transactions are modelled at the parsed level: inputs carry their previous
outpoint and witness stack, outputs carry script and amount. Parsing,
serialization and the Schnorr signature itself are external (btc-signer),
so the fresh witness produced for the rebuilt input is passed in as an
opaque string. -/

/-- A transaction input: previous outpoint plus witness stack items. -/
structure TxIn where
  prevTxid : String
  prevVout : Nat
  witness : List String
deriving DecidableEq, Repr

/-- A transaction output: script hex and amount in satoshis. -/
structure TxOut where
  script : String
  amount : Nat
deriving DecidableEq, Repr

/-- A parsed transaction. -/
structure Tx where
  inputs : List TxIn
  outputs : List TxOut
deriving DecidableEq, Repr

/-- Model of `signSpellTx(unsignedTxHex, signedCommitTxHex, mnemonic)`:
the source builds a brand-new transaction containing ONLY one input, which
spends output 0 of the commit transaction and carries the freshly produced
signature witness `sig`, then copies all outputs of the unsigned spell
transaction. Every input of the unsigned spell transaction, including any
input already witnessed by the external prover, is left out of the result. -/
def signSpellTx (commitTxid : String) (commitOutput : TxOut)
    (unsignedSpell : Tx) (sig : String) : Tx :=
  ⟨[⟨commitTxid, 0, [sig]⟩], unsignedSpell.outputs⟩

/-- The spell half of `signProverTransactions`: the source returns
`signedHex: spellTxHex` unchanged (with the comment that rebuilding would
drop the prover witness), so at the raw-hex level the spell transaction is
the identity image of its input. -/
def proverSpellPassthrough (spellTxHex : String) : String := spellTxHex

/-! ## SHA-256 (the @noble/hashes primitive used by taggedHash)

A full executable SHA-256 over byte lists (each byte a Nat below 256),
32-bit words represented as Nat with explicit reduction modulo 2^32.
Validated below against the standard empty-string and "abc" test vectors. -/

/-- Big-endian byte list of fixed length for a natural number (the
`hexToBytes`, `toString(16).padStart(64, "0")` plumbing of the source). -/
def natToBytesBE : Nat → Nat → List Nat
  | 0, _ => []
  | k + 1, x => natToBytesBE k (x / 256) ++ [x % 256]

/-- Big-endian interpretation of a byte list as a natural number (the
`BigInt("0x" + bytesToHex(bytes))` plumbing of the source). -/
def bytesToNatBE (bs : List Nat) : Nat := bs.foldl (fun acc b => acc * 256 + b) 0

def add32 (a b : Nat) : Nat := (a + b) % 4294967296

def rotr32 (x n : Nat) : Nat := (x >>> n) ||| ((x <<< (32 - n)) % 4294967296)

def sha256ch (x y z : Nat) : Nat := (x &&& y) ^^^ ((x ^^^ 4294967295) &&& z)

def sha256maj (x y z : Nat) : Nat := (x &&& y) ^^^ (x &&& z) ^^^ (y &&& z)

def bigSigma0 (x : Nat) : Nat := rotr32 x 2 ^^^ rotr32 x 13 ^^^ rotr32 x 22

def bigSigma1 (x : Nat) : Nat := rotr32 x 6 ^^^ rotr32 x 11 ^^^ rotr32 x 25

def smallSigma0 (x : Nat) : Nat := rotr32 x 7 ^^^ rotr32 x 18 ^^^ (x >>> 3)

def smallSigma1 (x : Nat) : Nat := rotr32 x 17 ^^^ rotr32 x 19 ^^^ (x >>> 10)

/-- The 64 SHA-256 round constants of FIPS 180-4, written in decimal. -/
def sha256K : List Nat :=
  [1116352408, 1899447441, 3049323471, 3921009573,
   961987163, 1508970993, 2453635748, 2870763221,
   3624381080, 310598401, 607225278, 1426881987,
   1925078388, 2162078206, 2614888103, 3248222580,
   3835390401, 4022224774, 264347078, 604807628,
   770255983, 1249150122, 1555081692, 1996064986,
   2554220882, 2821834349, 2952996808, 3210313671,
   3336571891, 3584528711, 113926993, 338241895,
   666307205, 773529912, 1294757372, 1396182291,
   1695183700, 1986661051, 2177026350, 2456956037,
   2730485921, 2820302411, 3259730800, 3345764771,
   3516065817, 3600352804, 4094571909, 275423344,
   430227734, 506948616, 659060556, 883997877,
   958139571, 1322822218, 1537002063, 1747873779,
   1955562222, 2024104815, 2227730452, 2361852424,
   2428436474, 2756734187, 3204031479, 3329325298]

/-- Group a byte list into big-endian 32-bit words. -/
def bytesToWords : List Nat → List Nat
  | b0 :: b1 :: b2 :: b3 :: rest =>
      (((b0 * 256 + b1) * 256 + b2) * 256 + b3) :: bytesToWords rest
  | _ => []

/-- Extend the 16 message words by the given number of schedule words. -/
def sha256Schedule : Nat → List Nat → List Nat
  | 0, w => w
  | k + 1, w =>
      let i := w.length
      let word := add32 (add32 (smallSigma1 (w.getD (i - 2) 0)) (w.getD (i - 7) 0))
        (add32 (smallSigma0 (w.getD (i - 15) 0)) (w.getD (i - 16) 0))
      sha256Schedule k (w ++ [word])

/-- The eight 32-bit words of the SHA-256 state. -/
structure Hash8 where
  a : Nat
  b : Nat
  c : Nat
  d : Nat
  e : Nat
  f : Nat
  g : Nat
  h : Nat
deriving DecidableEq, Repr

/-- The eight SHA-256 initial hash values of FIPS 180-4, in decimal. -/
def sha256InitH : Hash8 :=
  ⟨1779033703, 3144134277, 1013904242, 2773480762,
   1359893119, 2600822924, 528734635, 1541459225⟩

/-- One pass of the 64 compression rounds over the zipped (constant, word)
list. -/
def sha256Rounds : List (Nat × Nat) → Hash8 → Hash8
  | [], s => s
  | (k, w) :: rest, s =>
      let t1 := add32 (add32 (add32 (add32 s.h (bigSigma1 s.e)) (sha256ch s.e s.f s.g)) k) w
      let t2 := add32 (bigSigma0 s.a) (sha256maj s.a s.b s.c)
      sha256Rounds rest ⟨add32 t1 t2, s.a, s.b, s.c, add32 s.d t1, s.e, s.f, s.g⟩

/-- Compress one 64-byte block into the state. -/
def sha256Block (s : Hash8) (block : List Nat) : Hash8 :=
  let w := sha256Schedule 48 (bytesToWords block)
  let r := sha256Rounds (sha256K.zip w) s
  ⟨add32 s.a r.a, add32 s.b r.b, add32 s.c r.c, add32 s.d r.d,
   add32 s.e r.e, add32 s.f r.f, add32 s.g r.g, add32 s.h r.h⟩

/-- The 0x80 / zero / 64-bit-length padding of SHA-256. -/
def sha256Pad (m : List Nat) : List Nat :=
  let len := m.length
  let zeros := (119 - len % 64) % 64
  m ++ [128] ++ List.replicate zeros 0 ++ natToBytesBE 8 (8 * len)

/-- Fold the compression over consecutive 64-byte blocks, with the block
count as structural fuel. -/
def sha256Blocks : Nat → Hash8 → List Nat → Hash8
  | 0, s, _ => s
  | fuel + 1, s, bytes =>
      if bytes.isEmpty then s
      else sha256Blocks fuel (sha256Block s (bytes.take 64)) (bytes.drop 64)

def hash8ToBytes (s : Hash8) : List Nat :=
  natToBytesBE 4 s.a ++ natToBytesBE 4 s.b ++ natToBytesBE 4 s.c ++
  natToBytesBE 4 s.d ++ natToBytesBE 4 s.e ++ natToBytesBE 4 s.f ++
  natToBytesBE 4 s.g ++ natToBytesBE 4 s.h

/-- SHA-256 of a byte list. -/
def sha256 (m : List Nat) : List Nat :=
  let padded := sha256Pad m
  hash8ToBytes (sha256Blocks (padded.length / 64) sha256InitH padded)

/-! ## Taproot tweak (src/lib/bitcoin.ts taggedHash lines 101-104,
tweakPrivateKey lines 109-135, createP2TRScript lines 140-143, and the
identical copies in the WalletService variant) -/

/-- ASCII bytes of the string "TapTweak". -/
def tapTweakTag : List Nat := [84, 97, 112, 84, 119, 101, 97, 107]

/-- BIP340 tagged hash: sha256(sha256(tag) || sha256(tag) || data). -/
def taggedHash (tag data : List Nat) : List Nat :=
  let th := sha256 tag
  sha256 (th ++ th ++ data)

/-- Order of the secp256k1 group (`secp256k1.Point.CURVE().n`). -/
def secpN : Nat :=
  0xFFFFFFFFFFFFFFFFFFFFFFFFFFFFFFFEBAAEDCE6AF48A03BBFD25E8CD0364141

/-- Model of `tweakPrivateKey(privateKey, publicKey)`. The 33-byte
compressed public key is represented by its x-coordinate `pubX` (what
`toXOnly` extracts) and the parity flag `pubOddY` (whether the prefix byte
is 0x03). The private scalar is negated modulo the curve order when the
public Y is odd, then the TapTweak tagged hash of the x-only key is added
modulo the curve order. -/
def tweakPrivateKey (privateKey : Nat) (pubX : Nat) (pubOddY : Bool) : Nat :=
  let tweak := bytesToNatBE (taggedHash tapTweakTag (natToBytesBE 32 pubX))
  let d := if pubOddY then secpN - privateKey else privateKey
  (d + tweak) % secpN

/-- Model of `createP2TRScript(xOnlyPubkey)`: OP_1, PUSH32, then the 32
key bytes. -/
def createP2TRScript (xOnlyPubkey : List Nat) : List Nat :=
  [0x51, 0x20] ++ xOnlyPubkey

/-! ## Key derivation records (src/lib/bitcoin.ts
generateTaprootKeysForIndex lines 179-213, deriveWalletFromMnemonic lines
219-241, validateMnemonic lines 171-173).

The BIP39 seed computation, BIP32 child derivation and mnemonic checksum
validation live in the external @scure libraries; they are modelled as the
fields of `HDLib`. The crucial modelled fact, visible in the library
signatures, is that `mnemonicToSeed` is a total function of the phrase (it
is plain PBKDF2 and performs no checksum validation), while
`validateMnemonic` is consulted only by `deriveWalletFromMnemonic`. -/

/-- A derived BIP32 child key as the source consumes it: the private
scalar and the compressed public key, the latter split into x-coordinate
and Y-parity. -/
structure ChildKey where
  priv : Nat
  pubX : Nat
  pubOddY : Bool
deriving DecidableEq, Repr

/-- The in-source fields of the TaprootKeys record (the address field is
produced by the external `btc.p2tr` call and is not modelled). -/
structure TaprootKeysRec where
  privateKey : Nat
  tweakedPrivateKey : Nat
  internalPubkey : List Nat
  script : List Nat
deriving DecidableEq, Repr

/-- The in-source computation of `generateTaprootKeysForIndex` after the
external libraries returned the child key: x-only internal key, tweaked
private key, and the script field built by `createP2TRScript` from the
INTERNAL public key. -/
def generateTaprootKeysCore (ck : ChildKey) : TaprootKeysRec :=
  let internal := natToBytesBE 32 ck.pubX
  ⟨ck.priv, tweakPrivateKey ck.priv ck.pubX ck.pubOddY, internal,
   createP2TRScript internal⟩

/-- The external @scure library surface used by wallet derivation.
`mnemonicToSeed` is total (PBKDF2 of the normalized phrase, no checksum
check); `derivePriv` returns `none` when the derived child lacks a private
or public key, modelling the `!child.privateKey || !child.publicKey`
guard. -/
structure HDLib where
  validateMnemonic : String → Bool
  mnemonicToSeed : String → List Nat
  derivePriv : List Nat → String → Option ChildKey

/-- The BIP86 derivation path string built by the source; the letter h
stands for the hardened tick of the source text. -/
def bip86Path (isTestnet : Bool) (index : Nat) : String :=
  "m/86h/" ++ (if isTestnet then "1h" else "0h") ++ "/0h/0/" ++ toString index

/-- Model of `generateTaprootKeysForIndex(seedPhrase, index, isTestnet)`:
seed the phrase (unconditionally — no mnemonic validation on this path),
derive the child, fail only if the child lacks key material, then run the
in-source key computation. -/
def generateTaprootKeysForIndex (lib : HDLib) (seedPhrase : String)
    (index : Nat) (isTestnet : Bool) : Except String TaprootKeysRec :=
  let seed := lib.mnemonicToSeed seedPhrase
  match lib.derivePriv seed (bip86Path isTestnet index) with
  | none => .error ("Failed to derive keys for index " ++ toString index)
  | some ck => .ok (generateTaprootKeysCore ck)

/-- Model of `deriveWalletFromMnemonic(mnemonic, index, isTestnet)`: reject
the phrase when `validateMnemonic` fails, otherwise derive as
`generateTaprootKeysForIndex` does (the WIF and hex re-encodings of the
same key material are not modelled). -/
def deriveWalletFromMnemonic (lib : HDLib) (mnemonic : String) (index : Nat)
    (isTestnet : Bool) : Except String TaprootKeysRec :=
  if lib.validateMnemonic mnemonic then
    generateTaprootKeysForIndex lib mnemonic index isTestnet
  else
    .error "Invalid mnemonic"

/-! ## The secp256k1 curve (mathematical reference, not source code)

To state what the public point of a tweaked private key is, we implement
the actual secp256k1 group operations over the base field, in Jacobian
coordinates (no field inversions): a point (X, Y, Z) with Z different from
zero represents the affine point (X / Z^2, Y / Z^3), and Z = 0 represents
the point at infinity. These definitions are mathematics (BIP340 semantics
of key material), used to settle claims about key records; they are not a
translation of repository code. -/

/-- The prime of the secp256k1 base field. -/
def secpP : Nat :=
  0xFFFFFFFFFFFFFFFFFFFFFFFFFFFFFFFFFFFFFFFFFFFFFFFFFFFFFFFEFFFFFC2F

def mpAdd (a b : Nat) : Nat := (a + b) % secpP

def mpSub (a b : Nat) : Nat := (a + (secpP - b % secpP)) % secpP

def mpMul (a b : Nat) : Nat := a * b % secpP

/-- A secp256k1 point in Jacobian coordinates; z = 0 is infinity. -/
structure JacPoint where
  x : Nat
  y : Nat
  z : Nat
deriving DecidableEq, Repr

def jacInf : JacPoint := ⟨1, 1, 0⟩

/-- Jacobian point doubling on the curve y^2 = x^3 + 7. -/
def jacDouble (P : JacPoint) : JacPoint :=
  if P.z = 0 ∨ P.y = 0 then jacInf
  else
    let A := mpMul P.x P.x
    let B := mpMul P.y P.y
    let C := mpMul B B
    let S := mpMul 4 (mpMul P.x B)
    let M := mpMul 3 A
    let X3 := mpSub (mpMul M M) (mpMul 2 S)
    let Y3 := mpSub (mpMul M (mpSub S X3)) (mpMul 8 C)
    let Z3 := mpMul 2 (mpMul P.y P.z)
    ⟨X3, Y3, Z3⟩

/-- Jacobian point addition on the curve y^2 = x^3 + 7. -/
def jacAdd (P Q : JacPoint) : JacPoint :=
  if P.z = 0 then Q
  else if Q.z = 0 then P
  else
    let Z1Z1 := mpMul P.z P.z
    let Z2Z2 := mpMul Q.z Q.z
    let U1 := mpMul P.x Z2Z2
    let U2 := mpMul Q.x Z1Z1
    let S1 := mpMul P.y (mpMul Q.z Z2Z2)
    let S2 := mpMul Q.y (mpMul P.z Z1Z1)
    if U1 = U2 then
      if S1 = S2 then jacDouble P else jacInf
    else
      let H := mpSub U2 U1
      let HH := mpMul H H
      let HHH := mpMul H HH
      let V := mpMul U1 HH
      let r := mpSub S2 S1
      let X3 := mpSub (mpSub (mpMul r r) HHH) (mpMul 2 V)
      let Y3 := mpSub (mpMul r (mpSub V X3)) (mpMul S1 HHH)
      let Z3 := mpMul (mpMul P.z Q.z) H
      ⟨X3, Y3, Z3⟩

/-- Binary double-and-add scalar multiplication, least significant bit
first, with the running point and the accumulator as explicit arguments and
enough structural fuel for 256-bit scalars. The leading condition compares
every coordinate with itself: it is always true, and its only purpose is to
force both points to numeric literals at every step, so that lazy
evaluation inside the kernel works through one short chain per step instead
of one 256-step-deep chain at the end (the unreachable else branch returns
the point at infinity). -/
def jacScalarMulSteps : Nat → Nat → JacPoint → JacPoint → JacPoint
  | 0, _, _, acc => acc
  | fuel + 1, k, p, acc =>
    if (p.x == p.x) && (p.y == p.y) && (p.z == p.z) &&
        (acc.x == acc.x) && (acc.y == acc.y) && (acc.z == acc.z) then
      if k = 0 then acc
      else
        jacScalarMulSteps fuel (k / 2) (jacDouble p)
          (if k % 2 = 1 then jacAdd acc p else acc)
    else jacInf

/-- Scalar multiplication k times P on secp256k1. -/
def jacScalarMul (k : Nat) (P : JacPoint) : JacPoint :=
  jacScalarMulSteps 256 k P jacInf

/-- The x-coordinate of the secp256k1 generator. -/
def gX : Nat :=
  0x79BE667EF9DCBBAC55A06295CE870B07029BFCDB2DCE28D959F2815B16F81798

/-- The y-coordinate of the secp256k1 generator (an even number, so the
compressed encoding of the generator carries prefix 0x02). -/
def gY : Nat :=
  0x483ADA7726A3C4655DA4FBFC0E1108A8FD17B448A68554199C47D08FFB10D4B8

def secpG : JacPoint := ⟨gX, gY, 1⟩

/-- The public point of a private scalar: d times the generator. -/
def pubPoint (d : Nat) : JacPoint := jacScalarMul d secpG

/-- Whether a Jacobian point is finite with affine x-coordinate `x0`:
X = x0 * Z^2 over the base field. -/
def jacHasX (P : JacPoint) (x0 : Nat) : Bool :=
  !(P.z == 0) && (P.x == mpMul x0 (mpMul P.z P.z))

/-- Whether two finite Jacobian points share their affine x-coordinate. -/
def jacSameX (P Q : JacPoint) : Bool :=
  !(P.z == 0) && !(Q.z == 0) &&
  (mpMul P.x (mpMul Q.z Q.z) == mpMul Q.x (mpMul P.z P.z))

/-!
# Theorems

Sanity checks of the executable embedding first (standard test vectors),
then shared helper lemmas, then one theorem per claim with its witness or
counterexample.
-/

set_option maxRecDepth 4000000
set_option maxHeartbeats 4000000

/-! ## Sanity checks: the SHA-256 and secp256k1 implementations reproduce
standard vectors -/

example : sha256 [] =
    [227, 176, 196, 66, 152, 252, 28, 20, 154, 251, 244, 200, 153, 111, 185,
     36, 39, 174, 65, 228, 100, 155, 147, 76, 164, 149, 153, 27, 120, 82,
     184, 85] := by decide

example : sha256 [97, 98, 99] =
    [186, 120, 22, 191, 143, 1, 207, 234, 65, 65, 64, 222, 93, 174, 34, 35,
     176, 3, 97, 163, 150, 23, 122, 156, 180, 16, 255, 97, 242, 0, 21,
     173] := by decide

example : jacHasX (pubPoint 2)
    0xC6047F9441ED7D6D3045406E95C07CD85C778E4B8CEF3CA7ABAC09B95C709EE5 = true := by
  decide

example : (jacScalarMul secpN secpG).z = 0 := by decide

/-! ## Helper lemmas on the selection loops -/

theorem sumValues_nil : sumValues [] = 0 := rfl

theorem sumValues_cons (u : UTXOx) (l : List UTXOx) :
    sumValues (u :: l) = u.value + sumValues l := by
  simp [sumValues]

theorem sumValues_append_one (l : List UTXOx) (u : UTXOx) :
    sumValues (l ++ [u]) = sumValues l + u.value := by
  simp [sumValues]

/-- Ceiling of half a natural number, as the Nat expression the fee
definitions use. -/
theorem ceil_half_natCast (a : Nat) : ⌈((a : ℚ) / 2)⌉ = (((a + 1) / 2 : Nat) : Int) := by
  rcases Nat.even_or_odd a with ⟨m, hm⟩ | ⟨m, hm⟩
  · subst hm
    have h2 : ((m + m : Nat) : ℚ) / 2 = ((m : ℚ)) := by push_cast; ring
    rw [h2, Int.ceil_natCast]
    have : (m + m + 1) / 2 = m := by omega
    rw [this]
  · subst hm
    have h2 : ((2 * m + 1 : Nat) : ℚ) / 2 = (1 : ℚ) / 2 + (m : Nat) := by
      push_cast; ring
    rw [h2, Int.ceil_add_nat]
    have h3 : ⌈(1 : ℚ) / 2⌉ = 1 := by norm_num [Int.ceil_eq_iff]
    rw [h3]
    have : (2 * m + 1 + 1) / 2 = m + 1 := by omega
    rw [this]
    push_cast
    ring

/-- The Nat half-vbyte fee of the selection loops equals the source
expression `Math.ceil((10.5 + inputs*57.5 + outputs*43) * feeRate)`. -/
theorem selectFee_eq_ceil (inputs outputs feeRate : Nat) :
    (selectFee inputs outputs feeRate : Int) =
      ⌈((10.5 : ℚ) + 57.5 * inputs + 43 * outputs) * feeRate⌉ := by
  have h : ((10.5 : ℚ) + 57.5 * inputs + 43 * outputs) * feeRate
      = (((21 + 115 * inputs + 86 * outputs) * feeRate : Nat) : ℚ) / 2 := by
    push_cast; ring
  rw [h, ceil_half_natCast]
  rfl

/-- The fee estimator vsize equals the source expression
`Math.ceil(10.5 + numInputs*57.5 + numOutputs*43)`. -/
theorem estimateTaprootTxSize_eq_ceil (numInputs numOutputs : Nat) :
    (estimateTaprootTxSize numInputs numOutputs : Int) =
      ⌈(10.5 : ℚ) + 57.5 * numInputs + 43 * numOutputs⌉ := by
  have h : (10.5 : ℚ) + 57.5 * numInputs + 43 * numOutputs
      = (((21 + 115 * numInputs + 86 * numOutputs) : Nat) : ℚ) / 2 := by
    push_cast; ring
  rw [h, ceil_half_natCast]
  rfl

/-- Loop invariant of `selLoop`: when the greedy loop returns a selection,
the fee field is the loop fee for the final input count, the selected
values cover target plus fee, and the change field is the exact integer
difference. -/
theorem selLoop_some_spec {target feeRate : Nat} (l : List UTXOx) :
    ∀ (acc : List UTXOx) (total : Nat) (s : Selection),
      total = sumValues acc →
      selLoop target feeRate l acc total = some s →
      s.fee = selectFee s.selected.length 2 feeRate ∧
      target + s.fee ≤ sumValues s.selected ∧
      s.change = (sumValues s.selected : Int) - target - s.fee := by
  induction l with
  | nil => intro acc total s ht h; simp [selLoop] at h
  | cons u rest ih =>
    intro acc total s ht h
    simp only [selLoop] at h
    by_cases hc : target + selectFee (acc ++ [u]).length 2 feeRate ≤ total + u.value
    · rw [if_pos hc] at h
      have hs := Option.some.inj h
      subst hs
      refine ⟨rfl, ?_, ?_⟩
      · rw [sumValues_append_one, ← ht]; exact hc
      · rw [sumValues_append_one, ← ht]
    · rw [if_neg hc] at h
      exact ih (acc ++ [u]) (total + u.value) s
        (by rw [sumValues_append_one, ht]) h

/-- Loop invariant of `selLoop` on the failure path: when the loop returns
none, every nonempty prefix of the remaining list left the accumulated
total below target plus the fee for the reached input count. -/
theorem selLoop_none_prefix {target feeRate : Nat} (l : List UTXOx) :
    ∀ (acc : List UTXOx) (total : Nat),
      total = sumValues acc →
      selLoop target feeRate l acc total = none →
      ∀ k, 1 ≤ k → k ≤ l.length →
        sumValues acc + sumValues (l.take k) <
          target + selectFee (acc.length + k) 2 feeRate := by
  induction l with
  | nil => intro acc total _ _ k hk1 hk2; simp at hk2; omega
  | cons u rest ih =>
    intro acc total ht h
    simp only [selLoop] at h
    by_cases hc : target + selectFee (acc ++ [u]).length 2 feeRate ≤ total + u.value
    · rw [if_pos hc] at h; simp at h
    · rw [if_neg hc] at h
      have hlen : (acc ++ [u]).length = acc.length + 1 := by simp
      rw [hlen, ht] at hc
      intro k hk1 hk2
      match k, hk1 with
      | 1, _ =>
        simp only [List.take_succ_cons, List.take_zero]
        rw [sumValues_cons, sumValues_nil]
        omega
      | (j + 2), _ =>
        have hrec := ih (acc ++ [u]) (total + u.value)
          (by rw [sumValues_append_one, ht]) h (j + 1) (by omega)
          (by simp at hk2 ⊢; omega)
        rw [sumValues_append_one, hlen] at hrec
        have hidx : acc.length + 1 + (j + 1) = acc.length + (j + 1 + 1) := by omega
        rw [hidx] at hrec
        rw [show j + 2 = j + 1 + 1 from rfl, List.take_succ_cons, sumValues_cons]
        omega

/-- Loop invariant of `svcSelLoop`: every selected UTXO comes from the
accumulator or the remaining candidate list. -/
theorem svcSelLoop_selected_mem {target feeRate : Nat} (l : List UTXOx) :
    ∀ (acc : List UTXOx) (total : Nat) (s : UTXOSelection),
      svcSelLoop target feeRate l acc total = some s →
      ∀ u, u ∈ s.selected → u ∈ acc ∨ u ∈ l := by
  induction l with
  | nil => intro acc total s h; simp [svcSelLoop] at h
  | cons v rest ih =>
    intro acc total s h u hu
    simp only [svcSelLoop] at h
    by_cases hc : target + selectFee (acc ++ [v]).length 2 feeRate ≤ total + v.value
    · rw [if_pos hc] at h
      have hs := Option.some.inj h
      subst hs
      simp only [List.mem_append, List.mem_singleton] at hu
      rcases hu with h1 | h2
      · exact Or.inl h1
      · exact Or.inr (by simp [h2])
    · rw [if_neg hc] at h
      rcases ih (acc ++ [v]) (total + v.value) s h u hu with h1 | h2
      · simp only [List.mem_append, List.mem_singleton] at h1
        rcases h1 with h3 | h4
        · exact Or.inl h3
        · exact Or.inr (by simp [h4])
      · exact Or.inr (List.mem_cons_of_mem v h2)

theorem mem_insertUtxo {u a : UTXOx} {l : List UTXOx} :
    u ∈ insertUtxo a l ↔ u = a ∨ u ∈ l := by
  induction l with
  | nil => simp [insertUtxo]
  | cons b t ih =>
    simp only [insertUtxo]
    split
    · simp
    · simp only [List.mem_cons, ih]
      tauto

theorem mem_sortUtxos {u : UTXOx} {l : List UTXOx} :
    u ∈ sortUtxos l ↔ u ∈ l := by
  induction l with
  | nil => simp [sortUtxos]
  | cons a t ih => simp [sortUtxos, mem_insertUtxo, ih]

/-- Scan-time filtering with includeProtected unset removes every
protected-value UTXO before selection ever sees it. -/
theorem scanAddressFilter_no_protected {svc : UtxoService}
    (hip : svc.includeProtected = false) (raw : List UTXOx) {u : UTXOx}
    (hu : u ∈ scanAddressFilter svc raw) :
    isProtectedValue u.value = false := by
  simp [scanAddressFilter, hip, filterProtectedUtxos, List.mem_filter] at hu
  exact hu.2.1

/-! ## Claim C5 (corrected) -/

/-- C5 counterexample: the claim fails as stated. A UTXO of the protected
value 546 handed directly to the selection operation IS selected, although
the caller never opted in (the default service has includeProtected =
false, and the selection method reads no such flag at all): the source
performs protected-value filtering at scan time, not inside selection. -/
theorem serviceSelectUtxos_selects_protected_546 :
    defaultUtxoService.includeProtected = false ∧
    serviceSelectUtxos [⟨"a1", 0, 546, true⟩] 1 1 =
      some ⟨[⟨"a1", 0, 546, true⟩], 546, 154, 391⟩ ∧
    (⟨"a1", 0, 546, true⟩ : UTXOx) ∈ [(⟨"a1", 0, 546, true⟩ : UTXOx)] ∧
    isProtectedValue 546 = true := by
  decide

/-- C5 amended: protected-value exclusion holds for the pipeline the source
actually runs — UTXOs reach selection only through the scan-time filter of
UtxoService (scanAddress / scanAddressWithKeys), and when includeProtected
is false that filter removes every protected value, so no selection made
from scanned candidates ever contains one; the selection method itself does
not filter. -/
theorem scanThenSelect_excludes_protected (svc : UtxoService)
    (raw : List UTXOx) (target feeRate : Nat) (s : UTXOSelection)
    (hip : svc.includeProtected = false)
    (h : serviceSelectUtxos (scanAddressFilter svc raw) target feeRate = some s) :
    ∀ u ∈ s.selected, isProtectedValue u.value = false := by
  intro u hu
  simp only [serviceSelectUtxos] at h
  rcases svcSelLoop_selected_mem _ _ _ _ h u hu with h1 | h2
  · simp at h1
  · exact scanAddressFilter_no_protected hip raw (mem_sortUtxos.mp h2)

/-- C5 witness: a concrete scan-then-select run with a 546-sat UTXO in the
raw indexer data; the filter removes it, selection picks the other UTXO,
and the conclusion instantiates the amended theorem. -/
theorem scanThenSelect_excludes_protected_witness :
    serviceSelectUtxos
        (scanAddressFilter ⟨false, 1⟩
          [⟨"a1", 0, 546, true⟩, ⟨"b2", 1, 50000, true⟩]) 1000 1 =
      some ⟨[⟨"b2", 1, 50000, true⟩], 50000, 154, 48846⟩ ∧
    ∀ u ∈ (⟨[⟨"b2", 1, 50000, true⟩], 50000, 154, 48846⟩ : UTXOSelection).selected,
      isProtectedValue u.value = false :=
  ⟨by decide,
   scanThenSelect_excludes_protected ⟨false, 1⟩
     [⟨"a1", 0, 546, true⟩, ⟨"b2", 1, 50000, true⟩] 1000 1
     ⟨[⟨"b2", 1, 50000, true⟩], 50000, 154, 48846⟩ rfl (by decide)⟩

/-! ## Claim C6 (corrected) -/

/-- C6 counterexample: the claim fails as stated. With two selected inputs
and fee rate 2, the selection loop returns fee 423 =
ceil((10.5 + 2 times 57.5 + 2 times 43) times 2), while the FeeEstimator
(estimateTaprootTxSize, which rounds the vsize up to 212 BEFORE applying
the rate, then calculateTaprootFee) gives 424: the two roundings differ, so
the returned fee does not equal the FeeEstimator fee. -/
theorem selectUTXOs_fee_differs_from_feeEstimator :
    selectUTXOs [⟨"a1", 0, 9000, true⟩, ⟨"b2", 1, 8000, true⟩] 8900 2 =
      some ⟨[⟨"a1", 0, 9000, true⟩, ⟨"b2", 1, 8000, true⟩], 423, 7677⟩ ∧
    calculateTaprootFee 2 2 2 = 424 ∧ (423 : Nat) ≠ 424 := by
  decide

/-- C6 amended: when selection returns a Selection, the selected values
cover the target plus the returned fee, and the returned fee equals the
fee of the selection loop itself — the ceiling of the raw (un-rounded)
Taproot vsize times the rate — which can be one satoshi below the
FeeEstimator value that rounds the vsize up first. -/
theorem selectUTXOs_some_covers_target (utxos : List UTXOx)
    (target feeRate : Nat) (s : Selection)
    (h : selectUTXOs utxos target feeRate = some s) :
    target + s.fee ≤ sumValues s.selected ∧
    s.fee = selectFee s.selected.length 2 feeRate := by
  simp only [selectUTXOs] at h
  have hspec := selLoop_some_spec (sortUtxos utxos) [] 0 s rfl h
  exact ⟨hspec.2.1, hspec.1⟩

/-- C6 witness: the amended theorem applied at a concrete selection run. -/
theorem selectUTXOs_some_covers_target_witness :
    selectUTXOs [⟨"f0", 0, 50000, true⟩] 40000 2 =
      some ⟨[⟨"f0", 0, 50000, true⟩], 308, 9692⟩ ∧
    (40000 + 308 ≤ sumValues [⟨"f0", 0, 50000, true⟩] ∧
      308 = selectFee 1 2 2) :=
  ⟨by decide,
   selectUTXOs_some_covers_target [⟨"f0", 0, 50000, true⟩] 40000 2
     ⟨[⟨"f0", 0, 50000, true⟩], 308, 9692⟩ (by decide)⟩

/-! ## Claim C7 (corrected) -/

/-- C7 counterexample: the claim fails as stated. The list holds a
confirmed 1-sat UTXO and an unconfirmed 20000-sat UTXO (neither value is
protected, so protected-value filtering removes nothing); at target 19800
and rate 1 the greedy loop exhausts its confirmed-first ordering and
returns none, yet the singleton subset holding the unconfirmed UTXO
satisfies sum >= target + fee for its input count. -/
theorem selectUTXOs_none_with_satisfying_subset :
    selectUTXOs [⟨"a1", 0, 1, true⟩, ⟨"b2", 0, 20000, false⟩] 19800 1 = none ∧
    filterProtectedUtxos [⟨"a1", 0, 1, true⟩, ⟨"b2", 0, 20000, false⟩] =
      [⟨"a1", 0, 1, true⟩, ⟨"b2", 0, 20000, false⟩] ∧
    (⟨"b2", 0, 20000, false⟩ : UTXOx) ∈
      [⟨"a1", 0, 1, true⟩, (⟨"b2", 0, 20000, false⟩ : UTXOx)] ∧
    19800 + selectFee 1 2 1 ≤ sumValues [⟨"b2", 0, 20000, false⟩] := by
  decide

/-- C7 amended: when selection returns none, every nonempty prefix of the
preference ordering it actually walks (confirmed first, then value
descending) has a value sum below target plus the fee for that prefix
length; in particular the whole candidate list is below its threshold.
Arbitrary subsets are NOT covered: an unconfirmed high-value UTXO sorted
last can form a satisfying subset even though selection fails. -/
theorem selectUTXOs_none_sorted_prefix_below (utxos : List UTXOx)
    (target feeRate : Nat)
    (h : selectUTXOs utxos target feeRate = none) :
    ∀ k, 1 ≤ k → k ≤ (sortUtxos utxos).length →
      sumValues ((sortUtxos utxos).take k) <
        target + selectFee k 2 feeRate := by
  intro k hk1 hk2
  simp only [selectUTXOs] at h
  have := selLoop_none_prefix (sortUtxos utxos) [] 0 rfl h k hk1 hk2
  simpa [sumValues_nil] using this

/-- C7 witness: the amended theorem applied to a concrete failing run. -/
theorem selectUTXOs_none_sorted_prefix_below_witness :
    selectUTXOs [⟨"a1", 0, 1, true⟩] 9800 1 = none ∧
    sumValues ((sortUtxos [⟨"a1", 0, 1, true⟩]).take 1) <
      9800 + selectFee 1 2 1 :=
  ⟨by decide,
   selectUTXOs_none_sorted_prefix_below [⟨"a1", 0, 1, true⟩] 9800 1
     (by decide) 1 (by decide) (by decide)⟩

/-! ## Claim C8 (corrected) -/

/-- C8 counterexample: the claim fails as stated. For the single confirmed
50000-sat UTXO, target 40000 and rate 2, the code returns fee 308 and
change 9692 — not the fee 298 and change 9702 asserted by the claim. The
claim even contradicts its own formula: ceil((10.5 + 57.5 + 2*43) * 2) =
ceil(154 * 2) = 308. -/
theorem selectUTXOs_scenario_fee_is_308 :
    selectUTXOs [⟨"f0", 0, 50000, true⟩] 40000 2 =
      some ⟨[⟨"f0", 0, 50000, true⟩], 308, 9692⟩ ∧
    (308 : Nat) ≠ 298 ∧ (9692 : Int) ≠ 9702 := by
  decide

/-- C8 amended: the same scenario with the correctly evaluated numbers —
the UTXO is returned as the sole selected input, the fee is
ceil((10.5 + 57.5 + 2*43) * 2) = 308 satoshis, and the change is
50000 - 40000 - 308 = 9692 satoshis. -/
theorem selectUTXOs_scenario_values :
    selectUTXOs [⟨"f0", 0, 50000, true⟩] 40000 2 =
      some ⟨[⟨"f0", 0, 50000, true⟩], 308, 9692⟩ ∧
    selectFee 1 2 2 = 308 ∧
    ((50000 : Int) - 40000 - 308 = 9692) := by
  decide

/-! ## Claim C9 (confirmed) -/

/-- C9: whenever the selection operation returns a Selection, the change is
non-negative and equals the selected value sum minus the target minus the
returned fee — the caller is never handed a negative change amount. -/
theorem selectUTXOs_change_nonneg_exact (utxos : List UTXOx)
    (target feeRate : Nat) (s : Selection)
    (h : selectUTXOs utxos target feeRate = some s) :
    0 ≤ s.change ∧
    s.change = (sumValues s.selected : Int) - target - s.fee := by
  simp only [selectUTXOs] at h
  have hspec := selLoop_some_spec (sortUtxos utxos) [] 0 s rfl h
  refine ⟨?_, hspec.2.2⟩
  rw [hspec.2.2]
  have := hspec.2.1
  omega

/-- C9 witness: the theorem applied at a concrete selection run. -/
theorem selectUTXOs_change_nonneg_exact_witness :
    selectUTXOs [⟨"g1", 1, 20000, true⟩] 10000 1 =
      some ⟨[⟨"g1", 1, 20000, true⟩], 154, 9846⟩ ∧
    (0 ≤ (9846 : Int) ∧
      (9846 : Int) = (sumValues [⟨"g1", 1, 20000, true⟩] : Int) - 10000 - 154) :=
  ⟨by decide,
   selectUTXOs_change_nonneg_exact [⟨"g1", 1, 20000, true⟩] 10000 1
     ⟨[⟨"g1", 1, 20000, true⟩], 154, 9846⟩ (by decide)⟩

/-! ## Claim C1 (confirmed) -/

/-- C1: for every parser behaviour, transaction pair and funding UTXO, if
classification fails — neither transaction spends the funding UTXO id, or
both spend it but neither references an output of the other, or the
transaction identified as the spell does not reference the commit id —
then broadcastTxPackage returns an error whose result carries no broadcast
submission at all: no sequential broadcast and no package submission
occurs. -/
theorem broadcastTxPackage_error_on_bad_pair (txI : String → TxData)
    (tx1Hex tx2Hex ftxid : String) (fvout : Nat)
    (hfail :
      (fundingUtxoIdOf ftxid fvout ∉ (txI tx1Hex).inputs ∧
        fundingUtxoIdOf ftxid fvout ∉ (txI tx2Hex).inputs) ∨
      (fundingUtxoIdOf ftxid fvout ∈ (txI tx1Hex).inputs ∧
        fundingUtxoIdOf ftxid fvout ∈ (txI tx2Hex).inputs ∧
        spendsOutputOf (txI tx2Hex).inputs (txI tx1Hex).id = false ∧
        spendsOutputOf (txI tx1Hex).inputs (txI tx2Hex).id = false) ∨
      (fundingUtxoIdOf ftxid fvout ∈ (txI tx1Hex).inputs ∧
        fundingUtxoIdOf ftxid fvout ∉ (txI tx2Hex).inputs ∧
        spendsOutputOf (txI tx2Hex).inputs (txI tx1Hex).id = false) ∨
      (fundingUtxoIdOf ftxid fvout ∈ (txI tx2Hex).inputs ∧
        fundingUtxoIdOf ftxid fvout ∉ (txI tx1Hex).inputs ∧
        spendsOutputOf (txI tx1Hex).inputs (txI tx2Hex).id = false)) :
    ∃ e, broadcastTxPackage txI tx1Hex tx2Hex ftxid fvout =
      Except.error e := by
  rcases hfail with ⟨h0, h1⟩ | ⟨h0, h1, h2, h3⟩ | ⟨h0, h1, h2⟩ | ⟨h0, h1, h2⟩
  · simp [broadcastTxPackage, classifyProverTxs, h0, h1]
  · simp [broadcastTxPackage, classifyProverTxs, h0, h1, h2, h3]
  · simp [broadcastTxPackage, classifyProverTxs, h0, h1, h2]
  · simp [broadcastTxPackage, classifyProverTxs, h0, h1, h2]

/-- C1 witness: a parser under which neither transaction spends the
funding UTXO; the theorem yields the error result. -/
theorem broadcastTxPackage_error_on_bad_pair_witness :
    ∃ e, broadcastTxPackage (fun _ => ⟨"aa", []⟩) "t0" "t1" "ff" 0 =
      Except.error e :=
  broadcastTxPackage_error_on_bad_pair (fun _ => ⟨"aa", []⟩) "t0" "t1" "ff" 0
    (Or.inl ⟨by decide, by decide⟩)

/-! ## Claim C2 (confirmed) -/

/-- C2: for every parser behaviour, if the commit transaction spends the
funding UTXO id, the spell transaction does not, and the spell references
an output of the commit transaction, then classification returns the same
commit/spell assignment for both argument orders. -/
theorem classifyProverTxs_order_independent (txI : String → TxData)
    (commitHex spellHex fid : String)
    (hc : fid ∈ (txI commitHex).inputs)
    (hs : fid ∉ (txI spellHex).inputs)
    (hdep : spendsOutputOf (txI spellHex).inputs (txI commitHex).id = true) :
    classifyProverTxs txI commitHex spellHex fid =
      Except.ok ⟨commitHex, txI commitHex, spellHex, txI spellHex⟩ ∧
    classifyProverTxs txI spellHex commitHex fid =
      Except.ok ⟨commitHex, txI commitHex, spellHex, txI spellHex⟩ := by
  constructor
  · simp [classifyProverTxs, hc, hs, hdep]
  · simp [classifyProverTxs, hc, hs, hdep]

/-- C2 witness: a concrete two-transaction pair where only the commit
spends the funding UTXO f:0 and the spell spends output 0 of the commit
id; classification agrees for both orders. -/
theorem classifyProverTxs_order_independent_witness :
    classifyProverTxs
        (fun h => if h = "commitHex" then ⟨"cid", ["f:0"]⟩
          else ⟨"sid", ["cid:0"]⟩) "commitHex" "spellHex" "f:0" =
      Except.ok ⟨"commitHex", ⟨"cid", ["f:0"]⟩, "spellHex", ⟨"sid", ["cid:0"]⟩⟩ ∧
    classifyProverTxs
        (fun h => if h = "commitHex" then ⟨"cid", ["f:0"]⟩
          else ⟨"sid", ["cid:0"]⟩) "spellHex" "commitHex" "f:0" =
      Except.ok ⟨"commitHex", ⟨"cid", ["f:0"]⟩, "spellHex", ⟨"sid", ["cid:0"]⟩⟩ :=
  classifyProverTxs_order_independent
    (fun h => if h = "commitHex" then ⟨"cid", ["f:0"]⟩ else ⟨"sid", ["cid:0"]⟩)
    "commitHex" "spellHex" "f:0" (by decide) (by decide) (by decide)

/-! ## Claim C3 (code bug) -/

/-- C3: evaluation of the key-material invariant at the concrete child key
with private scalar 1, whose public key is the generator (even Y, so the
compressed prefix is 0x02). The record produced by the in-source
computation stores OP_1 PUSH32 internalPubkey in its script field; the
public point of tweakedPrivateKey is finite, does NOT have the
x-coordinate encoded in the script field, and instead has the x-coordinate
of the BIP341 output key: the internal point plus the TapTweak tagged hash
times the generator. So the claimed invariant fails on the code: the
script field holds the internal key where BIP341 (and the address the
record carries next to it) requires the tweaked output key. -/
theorem taprootKeys_script_internal_key_not_output_key :
    (pubPoint 1 = secpG ∧ gY % 2 = 0) ∧
    (generateTaprootKeysCore ⟨1, gX, false⟩).script =
      [0x51, 0x20] ++ natToBytesBE 32 gX ∧
    (pubPoint (generateTaprootKeysCore ⟨1, gX, false⟩).tweakedPrivateKey).z ≠ 0 ∧
    jacHasX (pubPoint (generateTaprootKeysCore ⟨1, gX, false⟩).tweakedPrivateKey)
      gX = false ∧
    jacSameX (pubPoint (generateTaprootKeysCore ⟨1, gX, false⟩).tweakedPrivateKey)
      (jacAdd secpG (jacScalarMul
        (bytesToNatBE (taggedHash tapTweakTag (natToBytesBE 32 gX))) secpG)) =
      true := by
  decide

/-! ## Claim C4 (code bug) -/

/-- C4: evaluation of signSpellTx at a spell transaction with two inputs
whose last input carries a prover witness. The rebuilt transaction copies
the outputs verbatim but contains exactly ONE input (the rebuilt spend of
commit output 0), and the prover-witnessed input is gone — contradicting
the claim that every other input passes through byte-identical. The
shipped pipeline path (signProverTransactions) instead passes the raw
spell hex through unchanged. -/
theorem signSpellTx_drops_prover_input :
    let spell : Tx :=
      ⟨[⟨"ff", 0, []⟩, ⟨"ab", 1, ["proverwitness"]⟩],
       [⟨"out0", 1000⟩, ⟨"out1", 2000⟩]⟩
    let result := signSpellTx "cc" ⟨"cscript", 5000⟩ spell "usersig"
    result.outputs = spell.outputs ∧
    spell.inputs.length = 2 ∧
    result.inputs.length = 1 ∧
    (⟨"ab", 1, ["proverwitness"]⟩ : TxIn) ∈ spell.inputs ∧
    (⟨"ab", 1, ["proverwitness"]⟩ : TxIn) ∉ result.inputs ∧
    proverSpellPassthrough "rawspellhex" = "rawspellhex" := by
  decide

/-! ## Claim C10 (confirmed) -/

/-- C10: generateTaprootKeysForIndex never consults validateMnemonic: for
every library behaviour and every phrase failing validation, the
derivation still returns key material whenever the HD child exists, while
deriveWalletFromMnemonic rejects the same phrase with the Invalid mnemonic
error before deriving. -/
theorem generateTaprootKeys_ignores_mnemonic_validation (lib : HDLib)
    (m : String) (index : Nat) (isTestnet : Bool)
    (hv : lib.validateMnemonic m = false) :
    deriveWalletFromMnemonic lib m index isTestnet =
      Except.error "Invalid mnemonic" ∧
    ∀ ck, lib.derivePriv (lib.mnemonicToSeed m) (bip86Path isTestnet index) =
        some ck →
      generateTaprootKeysForIndex lib m index isTestnet =
        Except.ok (generateTaprootKeysCore ck) := by
  constructor
  · simp [deriveWalletFromMnemonic, hv]
  · intro ck hck
    simp [generateTaprootKeysForIndex, hck]

/-- C10 witness: a library whose checksum validation rejects everything
yet whose derivation succeeds; the wallet constructor errors while the key
generator returns the derived record. -/
theorem generateTaprootKeys_ignores_mnemonic_validation_witness :
    deriveWalletFromMnemonic
        ⟨fun _ => false, fun _ => [0], fun _ _ => some ⟨5, 7, true⟩⟩
        "twelve bogus words" 0 true = Except.error "Invalid mnemonic" ∧
    generateTaprootKeysForIndex
        ⟨fun _ => false, fun _ => [0], fun _ _ => some ⟨5, 7, true⟩⟩
        "twelve bogus words" 0 true =
      Except.ok (generateTaprootKeysCore ⟨5, 7, true⟩) :=
  ⟨(generateTaprootKeys_ignores_mnemonic_validation _ _ _ _ rfl).1,
   (generateTaprootKeys_ignores_mnemonic_validation _ _ _ _ rfl).2
     ⟨5, 7, true⟩ rfl⟩

end EchoMarkets

